import Mathlib

/-!
# Trading Journal — verification of the metrics/aggregation engine

Shallow embedding of `src/Trading_journal.py`: the amount calculator, the
trade store, the time-window (custom range) filter, the metrics block, the
cumulative/daily series and the CSV export, with monetary values as `ℚ`.
-/

namespace TradingJournal

/-- Calendar date, mirroring `datetime.date` (year, month, day). -/
structure Date where
  year : ℕ
  month : ℕ
  day : ℕ
deriving DecidableEq, Repr

/-- Date comparison: lexicographic on (year, month, day), as `datetime.date`
and the `pd.to_datetime` values compare in the source. -/
def Date.ble (a b : Date) : Bool :=
  if a.year ≠ b.year then a.year < b.year
  else if a.month ≠ b.month then a.month < b.month
  else a.day ≤ b.day

/-- Left-pad a numeral string with zeros to the given width. -/
def padZeros (w : ℕ) (s : String) : String :=
  String.mk (List.replicate (w - s.length) '0') ++ s

/-- ISO-8601 rendering `YYYY-MM-DD` of a date, as pandas writes the
datetime column to CSV. -/
def Date.iso (d : Date) : String :=
  padZeros 4 (toString d.year) ++ "-" ++ padZeros 2 (toString d.month)
    ++ "-" ++ padZeros 2 (toString d.day)

/-- The five trade types offered by the `selectbox` on line 26. -/
inductive TType where
  | W2R
  | W1R
  | L1R
  | L2R
  | Custom
deriving DecidableEq, Repr

/-- The selectbox string of each trade type. -/
def TType.code : TType → String
  | .W2R => "W2R"
  | .W1R => "W1R"
  | .L1R => "L1R"
  | .L2R => "L2R"
  | .Custom => "Custom $"

/-- `trade_type.startswith("W")` (line 38). -/
def TType.isW : TType → Bool
  | .W2R => true
  | .W1R => true
  | _ => false

/-- `float(trade_type[1:-1])` (line 37): the numeric portion of the code.
The source never evaluates this for `Custom $`; we return 0 there. -/
def TType.mult : TType → ℚ
  | .W2R => 2
  | .W1R => 1
  | .L1R => 1
  | .L2R => 2
  | .Custom => 0

/-- One trade record, the row appended on lines 59-66. -/
structure Trade where
  date : Date
  type : TType
  r_value : Option ℚ
  amount : ℚ
  image : Option String
  notes : String
deriving DecidableEq, Repr

/-- Amount calculation, lines 30-38: for `Custom $` the amount is the
direct P&L input (`custom`), otherwise it is `multiplier * r_value` for a
W-type and `-multiplier * r_value` for an L-type, and `none` when the R
value is missing. -/
def computeAmount (t : TType) (r : Option ℚ) (custom : Option ℚ) : Option ℚ :=
  match t with
  | .Custom => custom
  | _ => r.map (fun q => if t.isW then t.mult * q else -(t.mult * q))

/-- Form submission, lines 48-71: reject with the validation message when
`(trade_type != "Custom $" and r_value is None) or amount is None`
(line 49), otherwise append the new trade to the store. In the success
branch the amount is necessarily `some`, so `getD 0` only extracts it. -/
def add_trade (store : List Trade) (t : TType) (r : Option ℚ)
    (custom : Option ℚ) (d : Date) (img : Option String) (nts : String) :
    Except String (List Trade) :=
  let amount := computeAmount t r custom
  if (t ≠ TType.Custom ∧ r = none) ∨ amount = none then
    Except.error "Please enter all required fields"
  else
    Except.ok (store ++ [{ date := d, type := t, r_value := r,
                           amount := amount.getD 0, image := img, notes := nts }])

/-- Whether a form submission was rejected. -/
def failed (e : Except String (List Trade)) : Bool :=
  match e with
  | .error _ => true
  | .ok _ => false

/-- `df.sort_values("Date")` (line 81): sort the store by date ascending. -/
def sortByDate (ts : List Trade) : List Trade :=
  ts.insertionSort (fun a b => Date.ble a.date b.date = true)

/-- Running sum, `Series.cumsum()` (lines 84 and 145). -/
def cumsum : List ℚ → List ℚ
  | [] => []
  | a :: l => a :: (cumsum l).map (fun x => a + x)

/-- Expanding maximum, `Series.expanding(min_periods=1).max()` (line 146). -/
def expandingMax : List ℚ → List ℚ
  | [] => []
  | a :: l => a :: (expandingMax l).map (fun x => max a x)

/-- The drawdown series `cumulative - peak` (lines 145-147). -/
def drawdowns (amounts : List ℚ) : List ℚ :=
  List.zipWith (fun c p => c - p) (cumsum amounts) (expandingMax (cumsum amounts))

/-- `df.groupby("Date")["Amount"].transform("sum")` at one date (line 85). -/
def dailyPnL (df : List Trade) (d : Date) : ℚ :=
  ((df.filter (fun u => u.date = d)).map Trade.amount).sum

/-- Profit factor value: `np.inf` sentinel or a finite ratio (line 139). -/
inductive PF where
  | inf
  | val (q : ℚ)
deriving DecidableEq, Repr

/-- The metrics displayed on lines 150-161. -/
structure MetricsReport where
  total_trades : ℕ
  winning_trades : ℕ
  losing_trades : ℕ
  win_rate : ℚ
  total_wins : ℚ
  total_losses : ℚ
  profit_factor : PF
  avg_win : ℚ
  avg_loss : ℚ
  expectancy : ℚ
  max_drawdown : WithTop ℚ
  net_pnl : ℚ
deriving DecidableEq, Repr

/-- Metrics block, lines 129-161. The guard `if not filtered_df.empty`
(line 129) means no report is produced for an empty filtered set (the
source shows a warning there, line 233); we return `none` in that case.
`max_drawdown` is the minimum of the drawdown series (`⊤` would mean an
empty series, which cannot occur under the guard; pandas yields NaN
there). -/
def computeMetrics (filtered : List Trade) : Option MetricsReport :=
  match filtered with
  | [] => none
  | _ :: _ =>
    let amounts := filtered.map Trade.amount
    let total_trades := filtered.length
    let winning_trades := (amounts.filter (fun a => 0 < a)).length
    let losing_trades := (amounts.filter (fun a => a < 0)).length
    let win_rate : ℚ := if 0 < total_trades then winning_trades / total_trades else 0
    let total_wins := (amounts.filter (fun a => 0 < a)).sum
    let total_losses := |(amounts.filter (fun a => a < 0)).sum|
    let profit_factor := if 0 < total_losses then PF.val (total_wins / total_losses) else PF.inf
    let avg_win : ℚ := if 0 < winning_trades then total_wins / winning_trades else 0
    let avg_loss : ℚ := if 0 < losing_trades then total_losses / losing_trades else 0
    let expectancy := avg_win * win_rate + -avg_loss * (1 - win_rate)
    some { total_trades := total_trades
           winning_trades := winning_trades
           losing_trades := losing_trades
           win_rate := win_rate
           total_wins := total_wins
           total_losses := total_losses
           profit_factor := profit_factor
           avg_win := avg_win
           avg_loss := avg_loss
           expectancy := expectancy
           max_drawdown := (drawdowns amounts).minimum
           net_pnl := amounts.sum }

/-- Custom Range filter, lines 114-122: with exactly two bounds, keep the
trades with `start <= date <= end` (both comparisons inclusive, lines
119-120); any other shape of `date_range` falls through to the whole
dataframe (line 122). -/
def rangeFilter (df : List Trade) (dateRange : List Date) : List Trade :=
  match dateRange with
  | [s, e] => df.filter (fun t => Date.ble s t.date && Date.ble t.date e)
  | _ => df

/-- A CSV cell: a string, a number, or the empty cell pandas writes for
`None`. -/
inductive Cell where
  | str (s : String)
  | num (q : ℚ)
  | empty
deriving DecidableEq, Repr

/-- The dataframe the dashboard works on: the store sorted by date, each
row paired with its `Cumulative_PnL` value (lines 79-84). -/
def dfRows (ts : List Trade) : List (Trade × ℚ) :=
  (sortByDate ts).zip (cumsum ((sortByDate ts).map Trade.amount))

/-- The y-series of the Cumulative P&L chart (lines 184-190): the
`Cumulative_PnL` column of the rows of `df` that survive the filter. -/
def fig2Series (ts : List Trade) (pred : Trade → Bool) : List ℚ :=
  ((dfRows ts).filter (fun r => pred r.1)).map Prod.snd

/-- The header row `df.to_csv` writes (line 219): the six stored columns
plus the two derived columns added on lines 84-85. -/
def csvHeader : List Cell :=
  [.str "Date", .str "Type", .str "R_Value", .str "Amount",
   .str "Image", .str "Notes", .str "Cumulative_PnL", .str "Daily_PnL"]

/-- One exported data row for trade `t` with cumulative value `c`. -/
def tradeRow (df : List Trade) (t : Trade) (c : ℚ) : List Cell :=
  [.str t.date.iso, .str t.type.code,
   (match t.r_value with | some q => .num q | none => .empty),
   .num t.amount,
   (match t.image with | some s => .str s | none => .empty),
   .str t.notes, .num c, .num (dailyPnL df t.date)]

/-- CSV export, line 219: `df.to_csv(index=False)` over the full sorted
dataframe, header row first, one row per trade. -/
def exportCsv (ts : List Trade) : List (List Cell) :=
  let df := sortByDate ts
  let cums := cumsum (df.map Trade.amount)
  csvHeader :: (df.zip cums).map (fun p => tradeRow df p.1 p.2)

/-! Concrete sample data used by witnesses and counterexamples. -/

def sampleDate : Date := ⟨2024, 1, 1⟩

def sampleDate2 : Date := ⟨2024, 1, 2⟩

def zeroTrade : Trade := ⟨sampleDate, .Custom, none, 0, none, ""⟩

def earlyTrade : Trade := ⟨sampleDate, .Custom, none, 1, none, ""⟩

def lateTrade : Trade := ⟨sampleDate2, .Custom, none, 1, none, ""⟩

/-- The report the metrics block yields on a single zero-amount trade. -/
def zeroReport : MetricsReport :=
  { total_trades := 1, winning_trades := 0, losing_trades := 0, win_rate := 0,
    total_wins := 0, total_losses := 0, profit_factor := PF.inf,
    avg_win := 0, avg_loss := 0, expectancy := 0,
    max_drawdown := (0 : ℚ), net_pnl := 0 }

/-- The report the metrics block yields on a single trade of amount 1. -/
def oneReport : MetricsReport :=
  { total_trades := 1, winning_trades := 1, losing_trades := 0, win_rate := 1,
    total_wins := 1, total_losses := 0, profit_factor := PF.inf,
    avg_win := 1, avg_loss := 0, expectancy := 1,
    max_drawdown := (0 : ℚ), net_pnl := 1 }

/-- Sum of the negative parts `min a 0` of a list of amounts (proof-side
shorthand for reasoning about `total_losses` and the drawdown bound). -/
def negPartSum (l : List ℚ) : ℚ := (l.map (fun a => min a 0)).sum

/-! ## Claim theorems -/

/-- C5: for every non-Custom trade type with a positive R value, the
computed amount is `sign * multiplier * r_value`, with multiplier the
numeric portion of the type code (2 for W2R/L2R, 1 for W1R/L1R), positive
sign for W-types and negative for L-types; for `Custom $` the amount is
the supplied custom P&L, unchanged. -/
theorem computeAmount_spec (q c : ℚ) (r : Option ℚ) (_hq : 0 < q) :
    computeAmount TType.W2R (some q) (some c) = some (2 * q) ∧
    computeAmount TType.W1R (some q) (some c) = some (1 * q) ∧
    computeAmount TType.L1R (some q) (some c) = some (-(1 * q)) ∧
    computeAmount TType.L2R (some q) (some c) = some (-(2 * q)) ∧
    computeAmount TType.Custom r (some c) = some c := by
  simp [computeAmount, TType.isW, TType.mult]

/-- C5 witness: the spec scenario, r_value 50 and custom amount −20. -/
theorem computeAmount_spec_witness :
    (0:ℚ) < 50 ∧
    (computeAmount TType.W2R (some 50) (some (-20)) = some (2 * 50) ∧
     computeAmount TType.W1R (some 50) (some (-20)) = some (1 * 50) ∧
     computeAmount TType.L1R (some 50) (some (-20)) = some (-(1 * 50)) ∧
     computeAmount TType.L2R (some 50) (some (-20)) = some (-(2 * 50)) ∧
     computeAmount TType.Custom none (some (-20)) = some (-20)) :=
  ⟨by norm_num, computeAmount_spec 50 (-20) none (by norm_num)⟩

/-- C7: with both bounds present, the range filter keeps exactly the
trades with `start ≤ date ≤ end`, both comparisons inclusive (reflexivity
of `Date.ble` makes the endpoints selectable); any malformed range (not
exactly two bounds) falls back to the unfiltered set. -/
theorem rangeFilter_spec (df : List Trade) (s e : Date) (dr : List Date)
    (hdr : dr.length ≠ 2) :
    (∀ t, t ∈ rangeFilter df [s, e] ↔
      t ∈ df ∧ Date.ble s t.date = true ∧ Date.ble t.date e = true) ∧
    (∀ d : Date, Date.ble d d = true) ∧
    rangeFilter df dr = df := by
  refine ⟨?_, ?_, ?_⟩
  · intro t
    simp [rangeFilter, List.mem_filter, and_assoc]
  · intro d
    simp [Date.ble]
  · match dr, hdr with
    | [], _ => rfl
    | [a], _ => rfl
    | a :: b :: c :: tl, _ => rfl
    | [a, b], h => exact absurd rfl h

/-- C7 witness: a one-trade store, a two-sided range and the empty
(malformed) range. -/
theorem rangeFilter_spec_witness :
    ([] : List Date).length ≠ 2 ∧
    ((∀ t, t ∈ rangeFilter [earlyTrade] [sampleDate, sampleDate2] ↔
      t ∈ [earlyTrade] ∧ Date.ble sampleDate t.date = true ∧
        Date.ble t.date sampleDate2 = true) ∧
    (∀ d : Date, Date.ble d d = true) ∧
    rangeFilter [earlyTrade] ([] : List Date) = [earlyTrade]) :=
  ⟨by decide, rangeFilter_spec [earlyTrade] sampleDate sampleDate2 [] (by decide)⟩

/-- C4: under the form widgets' guarantees (the R input enforces
`min_value=0.01`, so a supplied R value is at least 1/100), a submission
is rejected — with the validation error and nothing appended to the
store — exactly when the R value is missing or nonpositive for a
non-Custom type, or the custom amount is missing for type Custom. -/
theorem add_trade_validation (store : List Trade) (t : TType) (r custom : Option ℚ)
    (d : Date) (img : Option String) (nts : String)
    (hr : ∀ q : ℚ, r = some q → 1/100 ≤ q) :
    (failed (add_trade store t r custom d img nts) = true ↔
      ((t ≠ TType.Custom ∧ (r = none ∨ ∃ q, r = some q ∧ q ≤ 0)) ∨
       (t = TType.Custom ∧ custom = none))) ∧
    (failed (add_trade store t r custom d img nts) = true →
      add_trade store t r custom d img nts =
        Except.error "Please enter all required fields") := by
  constructor
  · cases t <;> rcases r with _ | q <;> rcases custom with _ | c <;>
      simp [add_trade, computeAmount, failed] <;>
      (have h1 := hr q rfl; norm_num at h1; linarith)
  · intro hf
    by_cases hcond : (t ≠ TType.Custom ∧ r = none) ∨ computeAmount t r custom = none
    · simp [add_trade, hcond]
    · exfalso
      simp [add_trade, hcond, failed] at hf

/-- C4 witness: a W2R submission with no R value is rejected. -/
theorem add_trade_validation_witness :
    (∀ q : ℚ, (none : Option ℚ) = some q → 1/100 ≤ q) ∧
    ((failed (add_trade [] TType.W2R none none sampleDate none "") = true ↔
      ((TType.W2R ≠ TType.Custom ∧
        ((none : Option ℚ) = none ∨ ∃ q, (none : Option ℚ) = some q ∧ q ≤ 0)) ∨
       (TType.W2R = TType.Custom ∧ (none : Option ℚ) = none))) ∧
     (failed (add_trade [] TType.W2R none none sampleDate none "") = true →
       add_trade [] TType.W2R none none sampleDate none "" =
         Except.error "Please enter all required fields")) :=
  ⟨by simp, add_trade_validation [] TType.W2R none none sampleDate none "" (by simp)⟩

/-- C3 counterexample: on the empty filtered set the source skips the
metrics block entirely (line 129 guard; line 233 warning), so no report —
in particular no all-zero report — is produced. -/
theorem computeMetrics_empty_claim_false :
    computeMetrics ([] : List Trade) = none := rfl

/-- C3 amended: the metrics block yields a report exactly for non-empty
filtered sets; the empty set produces the `none` sentinel (a warning in
the UI), not an all-zero report. -/
theorem computeMetrics_none_iff (ts : List Trade) :
    computeMetrics ts = none ↔ ts = [] := by
  cases ts <;> simp [computeMetrics]

/-- C2 counterexample: a single zero-amount trade has
`total_wins = total_losses = 0`, yet the code reports the infinity
sentinel (line 139's `else np.inf` ignores `total_wins`), not 0 as the
claim states. -/
theorem profit_factor_claim_false :
    (computeMetrics [zeroTrade]).map
      (fun r => (r.total_wins, r.total_losses, r.profit_factor)) =
      some (0, 0, PF.inf) ∧ PF.inf ≠ PF.val 0 := by
  constructor
  · decide
  · decide

/-- C2 amended: the profit factor is the infinity sentinel iff
`total_losses = 0` (whatever `total_wins` is), and otherwise equals
`total_wins / total_losses`. -/
theorem profit_factor_amended (ts : List Trade) (rep : MetricsReport)
    (h : computeMetrics ts = some rep) :
    (rep.profit_factor = PF.inf ↔ rep.total_losses = 0) ∧
    (rep.total_losses ≠ 0 →
      rep.profit_factor = PF.val (rep.total_wins / rep.total_losses)) := by
  cases ts with
  | nil => exact absurd h (by simp [computeMetrics])
  | cons a l =>
    simp only [computeMetrics, Option.some.injEq] at h
    subst h
    by_cases hL : 0 < |(List.filter (fun x => x < 0)
        (List.map Trade.amount (a :: l))).sum|
    · constructor
      · simp only [hL, if_true]
        constructor
        · intro hx
          exact absurd hx (by simp)
        · intro h0
          rw [h0] at hL
          exact absurd hL (by norm_num)
      · intro h0
        simp only [hL, if_true]
    · have h0 : |(List.filter (fun x => x < 0)
          (List.map Trade.amount (a :: l))).sum| = 0 :=
        le_antisymm (not_lt.mp hL) (abs_nonneg _)
      constructor
      · simp [hL, h0]
      · intro hne
        exact absurd h0 hne

/-- C2 witness: the amended statement at the single zero-amount trade. -/
theorem profit_factor_amended_witness :
    computeMetrics [zeroTrade] = some zeroReport ∧
    ((zeroReport.profit_factor = PF.inf ↔ zeroReport.total_losses = 0) ∧
     (zeroReport.total_losses ≠ 0 →
       zeroReport.profit_factor =
         PF.val (zeroReport.total_wins / zeroReport.total_losses))) :=
  ⟨by norm_num [computeMetrics, zeroTrade, zeroReport, drawdowns, cumsum,
      expandingMax, List.minimum]; rfl,
   profit_factor_amended [zeroTrade] zeroReport
     (by norm_num [computeMetrics, zeroTrade, zeroReport, drawdowns, cumsum,
        expandingMax, List.minimum]; rfl)⟩

/-! ## List-level helper lemmas -/

lemma negPartSum_nil : negPartSum [] = 0 := rfl

lemma negPartSum_cons (a : ℚ) (l : List ℚ) :
    negPartSum (a :: l) = min a 0 + negPartSum l := by
  simp [negPartSum]

lemma negPartSum_nonpos (l : List ℚ) : negPartSum l ≤ 0 := by
  induction l with
  | nil => simp [negPartSum]
  | cons a l ih =>
    rw [negPartSum_cons]
    have : min a 0 ≤ 0 := min_le_right a 0
    linarith

lemma filter_neg_sum_eq_negPartSum (l : List ℚ) :
    (l.filter (fun a => a < 0)).sum = negPartSum l := by
  induction l with
  | nil => rfl
  | cons a l ih =>
    by_cases ha : a < 0
    · simp [List.filter_cons, ha, negPartSum_cons, ih, min_eq_left (le_of_lt ha)]
    · simp [List.filter_cons, ha, negPartSum_cons, ih, min_eq_right (not_lt.mp ha)]

lemma abs_filter_neg_sum (l : List ℚ) :
    |(l.filter (fun a => a < 0)).sum| = -negPartSum l := by
  rw [filter_neg_sum_eq_negPartSum,
    abs_of_nonpos (negPartSum_nonpos l)]

lemma cumsum_length (l : List ℚ) : (cumsum l).length = l.length := by
  induction l with
  | nil => rfl
  | cons a l ih => simp [cumsum, ih]

lemma expandingMax_length (l : List ℚ) : (expandingMax l).length = l.length := by
  induction l with
  | nil => rfl
  | cons a l ih => simp [expandingMax, ih]

lemma getLast?_cons_ne (a : ℚ) (l : List ℚ) (h : l ≠ []) :
    (a :: l).getLast? = l.getLast? := by
  cases l with
  | nil => exact absurd rfl h
  | cons b m => exact List.getLast?_cons_cons

lemma cumsum_getLast (l : List ℚ) (h : l ≠ []) :
    (cumsum l).getLast? = some l.sum := by
  induction l with
  | nil => exact absurd rfl h
  | cons a l ih =>
    cases l with
    | nil => simp [cumsum]
    | cons b m =>
      have hb : (b :: m) ≠ [] := by simp
      have h1 : (cumsum (b :: m)) ≠ [] := by
        rw [cumsum]
        simp
      have h2 : (cumsum (b :: m)).map (fun x => a + x) ≠ [] := by
        simpa using h1
      rw [cumsum, getLast?_cons_ne _ _ h2, List.getLast?_map, ih hb]
      simp [List.sum_cons]

lemma forall2_le_expandingMax (l : List ℚ) :
    List.Forall₂ (fun x y => x ≤ y) l (expandingMax l) := by
  induction l with
  | nil => exact List.Forall₂.nil
  | cons a l ih =>
    rw [expandingMax]
    refine List.Forall₂.cons le_rfl ?_
    rw [List.forall₂_map_right_iff]
    exact ih.imp (fun x y hxy => le_trans hxy (le_max_right a y))

lemma expandingMax_map_add (c : ℚ) (l : List ℚ) :
    expandingMax (l.map (fun x => c + x)) = (expandingMax l).map (fun x => c + x) := by
  induction l with
  | nil => rfl
  | cons a l ih =>
    simp only [List.map_cons, expandingMax, ih, List.map_map]
    congr 1
    apply List.map_congr_left
    intro x _
    simp [Function.comp, max_add_add_left]

lemma expandingMax_of_sorted (l : List ℚ) (h : l.Sorted (fun x y => x ≤ y)) :
    expandingMax l = l := by
  induction l with
  | nil => rfl
  | cons a l ih =>
    rw [List.sorted_cons] at h
    rw [expandingMax, ih h.2]
    congr 1
    have hm : ∀ x ∈ l, max a x = x := fun x hx => max_eq_right (h.1 x hx)
    calc List.map (fun x => max a x) l = List.map id l :=
        List.map_congr_left (fun x hx => hm x hx)
      _ = l := List.map_id l

lemma mem_cumsum_ge_negPartSum (l : List ℚ) :
    ∀ x ∈ cumsum l, negPartSum l ≤ x := by
  induction l with
  | nil => intro x hx; simp [cumsum] at hx
  | cons a l ih =>
    intro x hx
    rw [cumsum] at hx
    rw [negPartSum_cons]
    rcases List.mem_cons.mp hx with h1 | h1
    · rw [h1]
      have := negPartSum_nonpos l
      have := min_le_left a (0:ℚ)
      linarith
    · rcases List.mem_map.mp h1 with ⟨y, hy1, hy2⟩
      have h2 := ih y hy1
      have h3 := min_le_left a (0:ℚ)
      rw [← hy2]
      linarith

lemma forall2_zipWith_mem (f : ℚ → ℚ → ℚ) (p : ℚ → Prop)
    (as bs : List ℚ) (h : List.Forall₂ (fun a b => p (f a b)) as bs) :
    ∀ z ∈ List.zipWith f as bs, p z := by
  induction h with
  | nil => intro z hz; simp at hz
  | cons hab htail ih =>
    intro z hz
    rw [List.zipWith_cons_cons] at hz
    rcases List.mem_cons.mp hz with h1 | h1
    · rw [h1]; exact hab
    · exact ih z h1

lemma cumsum_expandingMax_key (l : List ℚ) :
    List.Forall₂ (fun x y => negPartSum l ≤ x ∧ negPartSum l ≤ x - y)
      (cumsum l) (expandingMax (cumsum l)) := by
  induction l with
  | nil => exact List.Forall₂.nil
  | cons a l ih =>
    rw [cumsum, expandingMax, expandingMax_map_add]
    refine List.Forall₂.cons ⟨?_, ?_⟩ ?_
    · rw [negPartSum_cons]
      have h1 := negPartSum_nonpos l
      have h2 := min_le_left a (0:ℚ)
      linarith
    · rw [negPartSum_cons]
      have h1 := negPartSum_nonpos l
      have h2 := min_le_right a (0:ℚ)
      have h3 : a - a = 0 := by ring
      rw [h3]
      linarith
    · rw [List.map_map, List.forall₂_map_left_iff, List.forall₂_map_right_iff]
      refine ih.imp ?_
      intro x y hxy
      obtain ⟨h1, h2⟩ := hxy
      have hmin := min_le_right a (0:ℚ)
      constructor
      · rw [negPartSum_cons]
        have := min_le_left a (0:ℚ)
        linarith
      · rw [negPartSum_cons]
        simp only [Function.comp]
        rcases max_cases a (a + y) with ⟨hm, _⟩ | ⟨hm, _⟩ <;> rw [hm]
        · linarith
        · linarith

lemma drawdowns_nonpos (l : List ℚ) : ∀ z ∈ drawdowns l, z ≤ 0 := by
  apply forall2_zipWith_mem
  exact (forall2_le_expandingMax (cumsum l)).imp (fun x y h => by linarith)

lemma drawdowns_ge_negPartSum (l : List ℚ) :
    ∀ z ∈ drawdowns l, negPartSum l ≤ z := by
  apply forall2_zipWith_mem
  exact (cumsum_expandingMax_key l).imp (fun x y h => h.2)

lemma zipWith_sub_self (l : List ℚ) :
    List.zipWith (fun c p => c - p) l l = l.map (fun _ => (0:ℚ)) := by
  induction l with
  | nil => rfl
  | cons a m ih => simp [ih]

lemma drawdowns_ne_nil (l : List ℚ) (h : l ≠ []) : drawdowns l ≠ [] := by
  cases l with
  | nil => exact absurd rfl h
  | cons a m =>
    rw [drawdowns, cumsum, expandingMax]
    simp

lemma length_filter_pos_add_neg (l : List ℚ) (h : ∀ x ∈ l, x ≠ 0) :
    (l.filter (fun a => 0 < a)).length + (l.filter (fun a => a < 0)).length
      = l.length := by
  induction l with
  | nil => rfl
  | cons a m ih =>
    have ha := h a (List.mem_cons_self a m)
    have hm : ∀ x ∈ m, x ≠ 0 := fun x hx => h x (List.mem_cons_of_mem a hx)
    have hrec := ih hm
    rcases lt_or_gt_of_ne ha with h1 | h1
    · simp only [List.filter_cons, decide_eq_true_eq, if_pos h1,
        if_neg (not_lt.mpr (le_of_lt h1)), List.length_cons]
      omega
    · simp only [List.filter_cons, decide_eq_true_eq, if_pos h1,
        if_neg (not_lt.mpr (le_of_lt h1)), List.length_cons]
      omega

lemma sum_filter_pos_add_neg (l : List ℚ) (h : ∀ x ∈ l, x ≠ 0) :
    (l.filter (fun a => 0 < a)).sum + (l.filter (fun a => a < 0)).sum = l.sum := by
  induction l with
  | nil => simp
  | cons a m ih =>
    have ha := h a (List.mem_cons_self a m)
    have hm : ∀ x ∈ m, x ≠ 0 := fun x hx => h x (List.mem_cons_of_mem a hx)
    have hrec := ih hm
    rcases lt_or_gt_of_ne ha with h1 | h1
    · simp only [List.filter_cons, decide_eq_true_eq, if_pos h1,
        if_neg (not_lt.mpr (le_of_lt h1)), List.sum_cons]
      linarith
    · simp only [List.filter_cons, decide_eq_true_eq, if_pos h1,
        if_neg (not_lt.mpr (le_of_lt h1)), List.sum_cons]
      linarith

lemma sum_eq_zero_of_length_eq_zero (l : List ℚ) (h : l.length = 0) :
    l.sum = 0 := by
  rw [List.length_eq_zero.mp h]
  rfl

lemma sortByDate_perm (ts : List Trade) : List.Perm (sortByDate ts) ts :=
  List.perm_insertionSort _ ts

lemma sortByDate_length (ts : List Trade) : (sortByDate ts).length = ts.length :=
  (sortByDate_perm ts).length_eq

lemma dfRows_snd (ts : List Trade) :
    (dfRows ts).map Prod.snd = cumsum ((sortByDate ts).map Trade.amount) := by
  rw [dfRows]
  refine List.map_snd_zip _ _ ?_
  rw [cumsum_length, List.length_map]

lemma exportRows_forall2 (dfx : List Trade) (dfa : List Trade) :
    ∀ (cs : List ℚ), cs.length = dfa.length →
    List.Forall₂ (fun (row : List Cell) (t : Trade) =>
      row.length = 8 ∧ row.head? = some (Cell.str t.date.iso))
      ((dfa.zip cs).map (fun p => tradeRow dfx p.1 p.2)) dfa := by
  induction dfa with
  | nil =>
    intro cs h
    simp only [List.zip_nil_left, List.map_nil]
    exact List.Forall₂.nil
  | cons t dfa ih =>
    intro cs h
    cases cs with
    | nil => simp at h
    | cons c cs2 =>
      rw [List.zip_cons_cons, List.map_cons]
      refine List.Forall₂.cons ⟨rfl, rfl⟩ (ih cs2 ?_)
      simpa using h

/-! ## Remaining claim theorems -/

/-- C8: for every (necessarily non-empty) filtered set that reaches the
metrics block, the max_drawdown value exists, is `≤ 0`, and equals 0
whenever the running cumulative P&L is non-decreasing throughout. -/
theorem max_drawdown_spec (ts : List Trade) (rep : MetricsReport)
    (h : computeMetrics ts = some rep) :
    ∃ m : ℚ, rep.max_drawdown = (m : WithTop ℚ) ∧ m ≤ 0 ∧
      ((cumsum (ts.map Trade.amount)).Sorted (fun x y => x ≤ y) → m = 0) := by
  cases ts with
  | nil => exact absurd h (by simp [computeMetrics])
  | cons a l =>
    simp only [computeMetrics, Option.some.injEq] at h
    subst h
    have hne : List.map Trade.amount (a :: l) ≠ [] := by simp
    have hdd : drawdowns (List.map Trade.amount (a :: l)) ≠ [] :=
      drawdowns_ne_nil _ hne
    have htop : (drawdowns (List.map Trade.amount (a :: l))).minimum ≠ ⊤ := by
      rw [Ne, List.minimum_eq_top]
      exact hdd
    obtain ⟨m, hm⟩ := WithTop.ne_top_iff_exists.mp htop
    have hmem : m ∈ drawdowns (List.map Trade.amount (a :: l)) :=
      (List.minimum_eq_coe_iff.mp hm.symm).1
    refine ⟨m, hm.symm, drawdowns_nonpos _ m hmem, ?_⟩
    intro hsort
    have heq : drawdowns (List.map Trade.amount (a :: l)) =
        (cumsum (List.map Trade.amount (a :: l))).map (fun _ => (0:ℚ)) := by
      rw [drawdowns, expandingMax_of_sorted _ hsort, zipWith_sub_self]
    rw [heq] at hmem
    rcases List.mem_map.mp hmem with ⟨y, _, hy⟩
    exact hy.symm

/-- C8 witness: the single-trade store of amount 1, whose drawdown
series is `[0]`. -/
theorem max_drawdown_spec_witness :
    computeMetrics [earlyTrade] = some oneReport ∧
    (∃ m : ℚ, oneReport.max_drawdown = (m : WithTop ℚ) ∧ m ≤ 0 ∧
      ((cumsum ([earlyTrade].map Trade.amount)).Sorted (fun x y => x ≤ y) → m = 0)) :=
  ⟨by norm_num [computeMetrics, earlyTrade, oneReport, drawdowns, cumsum,
      expandingMax, List.minimum]; rfl,
   max_drawdown_spec [earlyTrade] oneReport
     (by norm_num [computeMetrics, earlyTrade, oneReport, drawdowns, cumsum,
        expandingMax, List.minimum]; rfl)⟩

/-- C10: the magnitude of max_drawdown never exceeds total_losses:
`total_losses + max_drawdown ≥ 0` for every filtered set that reaches
the metrics block. -/
theorem max_drawdown_bounded (ts : List Trade) (rep : MetricsReport)
    (h : computeMetrics ts = some rep) (m : ℚ)
    (hm : rep.max_drawdown = (m : WithTop ℚ)) :
    0 ≤ rep.total_losses + m := by
  cases ts with
  | nil => exact absurd h (by simp [computeMetrics])
  | cons a l =>
    simp only [computeMetrics, Option.some.injEq] at h
    subst h
    have hmem : m ∈ drawdowns (List.map Trade.amount (a :: l)) :=
      (List.minimum_eq_coe_iff.mp hm).1
    have h1 : negPartSum (List.map Trade.amount (a :: l)) ≤ m :=
      drawdowns_ge_negPartSum _ m hmem
    show 0 ≤ |(List.filter (fun x => x < 0)
      (List.map Trade.amount (a :: l))).sum| + m
    rw [abs_filter_neg_sum]
    linarith

/-- C10 witness: the single-trade store of amount 1, with
`total_losses = 0` and `max_drawdown = 0`. -/
theorem max_drawdown_bounded_witness :
    computeMetrics [earlyTrade] = some oneReport ∧
    oneReport.max_drawdown = ((0:ℚ) : WithTop ℚ) ∧
    0 ≤ oneReport.total_losses + 0 :=
  ⟨by norm_num [computeMetrics, earlyTrade, oneReport, drawdowns, cumsum,
      expandingMax, List.minimum]; rfl,
   rfl,
   max_drawdown_bounded [earlyTrade] oneReport
     (by norm_num [computeMetrics, earlyTrade, oneReport, drawdowns, cumsum,
        expandingMax, List.minimum]; rfl) 0 rfl⟩

/-- C9: on a non-empty filtered set with no zero-amount trade,
`expectancy * total_trades = net_pnl`: the expectancy formula computes
the mean P&L per trade. -/
theorem expectancy_total_eq_net (ts : List Trade) (rep : MetricsReport)
    (h : computeMetrics ts = some rep) (hz : ∀ t ∈ ts, t.amount ≠ 0) :
    rep.expectancy * (rep.total_trades : ℚ) = rep.net_pnl := by
  cases ts with
  | nil => exact absurd h (by simp [computeMetrics])
  | cons a l =>
    simp only [computeMetrics, Option.some.injEq] at h
    subst h
    have hA : ∀ x ∈ List.map Trade.amount (a :: l), x ≠ 0 := by
      intro x hx
      rcases List.mem_map.mp hx with ⟨t, ht, hxa⟩
      rw [← hxa]
      exact hz t ht
    set A := List.map Trade.amount (a :: l) with hAdef
    set W := (A.filter (fun x => 0 < x)).sum with hWdef
    set S := (A.filter (fun x => x < 0)).sum with hSdef
    set w := (A.filter (fun x => 0 < x)).length with hwdef
    set lc := (A.filter (fun x => x < 0)).length with hlcdef
    set n := (a :: l).length with hndef
    have hn0 : 0 < n := by rw [hndef]; simp
    have hwl : w + lc = n := by
      rw [hwdef, hlcdef, hndef]
      have h1 := length_filter_pos_add_neg A hA
      rw [h1, hAdef, List.length_map]
    have hWS : W + S = A.sum := sum_filter_pos_add_neg A hA
    have hSle : S ≤ 0 := by
      rw [hSdef, filter_neg_sum_eq_negPartSum]
      exact negPartSum_nonpos A
    show ((if 0 < w then W / (w:ℚ) else 0) * (if 0 < n then (w:ℚ)/(n:ℚ) else 0) +
      -(if 0 < lc then |S| / (lc:ℚ) else 0) *
        (1 - if 0 < n then (w:ℚ)/(n:ℚ) else 0)) * (n:ℚ) = A.sum
    rw [if_pos hn0]
    have hnQ : ((n:ℚ)) ≠ 0 := Nat.cast_ne_zero.mpr (Nat.pos_iff_ne_zero.mp hn0)
    have hcast : (w:ℚ) + (lc:ℚ) = (n:ℚ) := by exact_mod_cast hwl
    by_cases hwpos : 0 < w
    · by_cases hlpos : 0 < lc
      · rw [if_pos hwpos, if_pos hlpos, abs_of_nonpos hSle]
        have hwQ : ((w:ℚ)) ≠ 0 := Nat.cast_ne_zero.mpr (Nat.pos_iff_ne_zero.mp hwpos)
        have hlQ : ((lc:ℚ)) ≠ 0 := Nat.cast_ne_zero.mpr (Nat.pos_iff_ne_zero.mp hlpos)
        have e2 : 1 - (w:ℚ)/(n:ℚ) = (lc:ℚ)/(n:ℚ) := by
          field_simp
          linarith
        have e1 : W / (w:ℚ) * ((w:ℚ)/(n:ℚ)) = W / (n:ℚ) := by
          field_simp
        have e3 : -(-S / (lc:ℚ)) * ((lc:ℚ)/(n:ℚ)) = S / (n:ℚ) := by
          field_simp
        rw [e2, e1, e3, div_add_div_same, div_mul_cancel₀ _ hnQ]
        exact hWS
      · have hl0 : lc = 0 := by omega
        have hS0 : S = 0 := by
          rw [hSdef]
          exact sum_eq_zero_of_length_eq_zero _ (by rw [← hlcdef]; exact hl0)
        have hwn : w = n := by omega
        have hsum : A.sum = W := by rw [← hWS, hS0, add_zero]
        rw [if_pos hwpos, if_neg hlpos, hwn, hsum]
        field_simp
    · have hw0 : w = 0 := by omega
      have hln : lc = n := by omega
      have hlpos : 0 < lc := by omega
      have hW0 : W = 0 := by
        rw [hWdef]
        exact sum_eq_zero_of_length_eq_zero _ (by rw [← hwdef]; exact hw0)
      have hsum : A.sum = S := by rw [← hWS, hW0, zero_add]
      rw [if_neg hwpos, if_pos hlpos, abs_of_nonpos hSle]
      have hwQ0 : ((w:ℚ)) = 0 := by exact_mod_cast hw0
      rw [hwQ0, hsum, hln]
      field_simp

/-- C9 witness: the single-trade store of amount 1, where
`expectancy = 1`, `total_trades = 1` and `net_pnl = 1`. -/
theorem expectancy_total_eq_net_witness :
    computeMetrics [earlyTrade] = some oneReport ∧
    (∀ t ∈ [earlyTrade], t.amount ≠ 0) ∧
    oneReport.expectancy * (oneReport.total_trades : ℚ) = oneReport.net_pnl :=
  ⟨by norm_num [computeMetrics, earlyTrade, oneReport, drawdowns, cumsum,
      expandingMax, List.minimum]; rfl,
   by decide,
   expectancy_total_eq_net [earlyTrade] oneReport
     (by norm_num [computeMetrics, earlyTrade, oneReport, drawdowns, cumsum,
        expandingMax, List.minimum]; rfl)
     (by decide)⟩

/-- C1 counterexample: with two one-unit trades on consecutive dates and a
filter keeping only the later one, the chart plots the full-collection
cumulative value `[2]` while the running sum of the filtered subset alone
is `[1]` — the `Cumulative_PnL` column is computed on line 84 before
filtering and is not recomputed for the filtered view. -/
theorem fig2Series_claim_false :
    fig2Series [earlyTrade, lateTrade] (fun t => decide (t.date = sampleDate2)) = [2] ∧
    cumsum ((sortByDate (([earlyTrade, lateTrade]).filter
      (fun t => decide (t.date = sampleDate2)))).map Trade.amount) = [1] ∧
    fig2Series [earlyTrade, lateTrade] (fun t => decide (t.date = sampleDate2)) ≠
      cumsum ((sortByDate (([earlyTrade, lateTrade]).filter
        (fun t => decide (t.date = sampleDate2)))).map Trade.amount) := by
  refine ⟨?_, ?_, ?_⟩
  · simp [fig2Series, dfRows, sortByDate, List.insertionSort, List.orderedInsert,
      cumsum, earlyTrade, lateTrade, sampleDate, sampleDate2, Date.ble]
    norm_num
  · simp [fig2Series, dfRows, sortByDate, List.insertionSort, List.orderedInsert,
      cumsum, earlyTrade, lateTrade, sampleDate, sampleDate2, Date.ble]
  · simp [fig2Series, dfRows, sortByDate, List.insertionSort, List.orderedInsert,
      cumsum, earlyTrade, lateTrade, sampleDate, sampleDate2, Date.ble]

/-- C1 amended: the plotted cumulative series is the running sum of the
whole collection sorted by date, restricted to the filtered rows (hence
always a sublist of that full running sum); when the filter keeps all
trades it coincides with the running sum of the filtered subset, and its
last element is then the net P&L of the collection. -/
theorem fig2Series_amended (ts : List Trade) (pred : Trade → Bool) (hne : ts ≠ []) :
    (fig2Series ts pred).Sublist (cumsum ((sortByDate ts).map Trade.amount)) ∧
    fig2Series ts (fun _ => true) = cumsum ((sortByDate ts).map Trade.amount) ∧
    (fig2Series ts (fun _ => true)).getLast? = some ((ts.map Trade.amount).sum) := by
  have heq : fig2Series ts (fun _ => true) =
      cumsum ((sortByDate ts).map Trade.amount) := by
    rw [fig2Series, List.filter_true]
    exact dfRows_snd ts
  refine ⟨?_, heq, ?_⟩
  · have h1 : (fig2Series ts pred).Sublist ((dfRows ts).map Prod.snd) :=
      (List.filter_sublist (dfRows ts)).map Prod.snd
    rw [dfRows_snd ts] at h1
    exact h1
  · have hs : (sortByDate ts).map Trade.amount ≠ [] := by
      intro hx
      apply hne
      have := congrArg List.length hx
      rw [List.length_map, sortByDate_length] at this
      exact List.length_eq_zero.mp this
    rw [heq, cumsum_getLast _ hs]
    congr 1
    exact ((sortByDate_perm ts).map Trade.amount).sum_eq

/-- C1 witness: the amended statement at a one-trade store with the
all-true filter. -/
theorem fig2Series_amended_witness :
    ([earlyTrade] : List Trade) ≠ [] ∧
    ((fig2Series [earlyTrade] (fun _ => true)).Sublist
      (cumsum ((sortByDate [earlyTrade]).map Trade.amount)) ∧
    fig2Series [earlyTrade] (fun _ => true) =
      cumsum ((sortByDate [earlyTrade]).map Trade.amount) ∧
    (fig2Series [earlyTrade] (fun _ => true)).getLast? =
      some (([earlyTrade].map Trade.amount).sum)) :=
  ⟨by simp, fig2Series_amended [earlyTrade] (fun _ => true) (by simp)⟩

/-- C6 counterexample: the exported header is not the six stored columns —
line 219 exports `df`, which lines 84-85 extended with `Cumulative_PnL`
and `Daily_PnL`. -/
theorem exportCsv_claim_false :
    (exportCsv [earlyTrade]).head? = some csvHeader ∧
    csvHeader ≠ [Cell.str "Date", Cell.str "Type", Cell.str "R_Value",
      Cell.str "Amount", Cell.str "Image", Cell.str "Notes"] :=
  ⟨rfl, by decide⟩

/-- C6 amended: the CSV export has exactly the columns Date, Type,
R_Value, Amount, Image, Notes, Cumulative_PnL, Daily_PnL — one header row
plus one row per trade of the collection, each data row carrying 8 cells
and starting with the ISO-8601 rendering of its trade's date. -/
theorem exportCsv_amended (ts : List Trade) :
    (exportCsv ts).head? = some csvHeader ∧
    csvHeader = [Cell.str "Date", Cell.str "Type", Cell.str "R_Value",
      Cell.str "Amount", Cell.str "Image", Cell.str "Notes",
      Cell.str "Cumulative_PnL", Cell.str "Daily_PnL"] ∧
    (exportCsv ts).length = ts.length + 1 ∧
    List.Forall₂ (fun (row : List Cell) (t : Trade) =>
      row.length = 8 ∧ row.head? = some (Cell.str t.date.iso))
      (exportCsv ts).tail (sortByDate ts) := by
  refine ⟨rfl, rfl, ?_, ?_⟩
  · simp only [exportCsv, List.length_cons, List.length_map, List.length_zip,
      cumsum_length, sortByDate_length, min_self]
  · simp only [exportCsv, List.tail_cons]
    exact exportRows_forall2 _ _ _ (by rw [cumsum_length, List.length_map])

end TradingJournal
